import Mathlib

/-!
Verification of the jpq JSONPath engine (Python layer of the jg-rp/jpq
repository) against its natural-language specification.

The definitions below are a shallow embedding of the Python sources:

  * `src/python/jpq/node.py`     — `JSONPathNode`, normalized path rendering
  * `src/python/jpq/nothing.py`  — the `Nothing` sentinel and its equality
  * `src/python/jpq/query.py`    — the evaluator: segment/selector
    resolution, filter-expression evaluation, comparison, truthiness
  * `src/python/jpq/env.py`      — environment, registry, compiled queries

Machine integers of the source (Rust i64 literal payloads) are modelled as
`Int` (the parser enforces the RFC 9535 safe range, so no wrap-around is
observable in the evaluator); Python/Rust doubles are idealized as `ℚ`
(no claim below depends on NaN, infinity or rounding).  Fallible Python
code (statements that can raise) is modelled with `Except String`.
-/

/-- A single quote character, written via its code point so path strings can
be assembled without quote literals. -/
def squote : String := String.mk [Char.ofNat 39]

/-- JSON-like values, as produced by `json.load` and consumed by the engine:
`JSONValue = list | dict[str, ...] | str | int | float | None | bool`
(`node.py`).  Objects keep document order, as Python dicts do. -/
inductive JSONValue where
  | null
  | bool (b : Bool)
  | int (i : Int)
  | float (q : ℚ)
  | str (s : String)
  | arr (elems : List JSONValue)
  | obj (members : List (String × JSONValue))

/-- One entry of a node location: an object member name or an array index
(`location: tuple[int | str, ...]` in `node.py`).  The index is an `Int`
because `resolve_selector` appends the raw, possibly negative, index. -/
inductive PathSeg where
  | name (s : String)
  | index (i : Int)
deriving DecidableEq

/-- `JSONPathNode` from `node.py`: a value and its location. -/
structure JSONPathNode where
  value : JSONValue
  location : List PathSeg

/-- The universe of filter-expression results in `query.py`: a JSON value
(Python booleans are JSON booleans there), the `NOTHING` sentinel, or a
`JSONPathNodeList`. -/
inductive FilterValue where
  | json (v : JSONValue)
  | nothing
  | nodes (ns : List JSONPathNode)

/-- Python treats `bool` as an `int` subtype: `True` counts as `1` and
`False` as `0` wherever an int is accepted. -/
def boolAsInt (b : Bool) : Int := if b then 1 else 0

/-- First value stored under a key in an association-list object
(Python dict lookup; keys of a decoded JSON object are unique). -/
def lookupMember : List (String × JSONValue) → String → Option JSONValue
  | [], _ => none
  | (k, v) :: rest, key => if k = key then some v else lookupMember rest key

mutual

/-- Python `==` on JSON-like values: structural deep equality, with numeric
cross-type equality (`1 == 1.0`) and `bool` comparing as `0`/`1` against
numbers (`True == 1` in Python).  Dict equality ignores order. -/
def pyEq : JSONValue → JSONValue → Bool
  | .null, .null => true
  | .bool a, .bool b => a == b
  | .bool a, .int n => boolAsInt a == n
  | .bool a, .float q => (boolAsInt a : ℚ) == q
  | .int n, .bool b => n == boolAsInt b
  | .float q, .bool b => q == (boolAsInt b : ℚ)
  | .int a, .int b => a == b
  | .int a, .float q => (a : ℚ) == q
  | .float q, .int a => q == (a : ℚ)
  | .float p, .float q => p == q
  | .str a, .str b => a == b
  | .arr xs, .arr ys => pyEqList xs ys
  | .obj xs, .obj ys => pyEqDict xs ys
  | _, _ => false
termination_by a b => sizeOf a + sizeOf b
decreasing_by all_goals simp_wf <;> omega

/-- Python list `==`: same length and element-wise `==`. -/
def pyEqList : List JSONValue → List JSONValue → Bool
  | [], [] => true
  | x :: xs, y :: ys => pyEq x y && pyEqList xs ys
  | _, _ => false
termination_by xs ys => sizeOf xs + sizeOf ys
decreasing_by all_goals simp_wf <;> omega

/-- Python dict `==`: same size and every key of the left maps to an
`==`-equal value on the right (keys are unique, so this is symmetric). -/
def pyEqDict (xs ys : List (String × JSONValue)) : Bool :=
  xs.length == ys.length && pyEqDictMem xs ys
termination_by sizeOf xs + sizeOf ys + 1
decreasing_by all_goals simp_wf <;> omega

def pyEqDictMem : List (String × JSONValue) → List (String × JSONValue) → Bool
  | [], _ => true
  | (k, v) :: rest, ys => pyFindEq ys k v && pyEqDictMem rest ys
termination_by xs ys => sizeOf xs + sizeOf ys
decreasing_by all_goals simp_wf <;> omega

def pyFindEq : List (String × JSONValue) → String → JSONValue → Bool
  | [], _, _ => false
  | (k2, w) :: ys, k, v => if k2 = k then pyEq v w else pyFindEq ys k v
termination_by ys _ v => sizeOf v + sizeOf ys
decreasing_by all_goals simp_wf <;> omega

end

/-- `Nothing.__eq__` from `nothing.py`:
`isinstance(other, Nothing) or (isinstance(other, JSONPathNodeList) and
other.empty())`. -/
def nothing_eq : FilterValue → Bool
  | .nothing => true
  | .nodes ns => ns.isEmpty
  | _ => false

/-- `JSONPathNodeList.__eq__` is inherited from `list`, and `JSONPathNode`
defines no `__eq__`, so elements are compared by object identity.  The
node objects reaching `_eq` are freshly constructed per evaluation, so two
node lists compare equal exactly when both are empty (element-wise identity
holds vacuously). -/
def nodeListPyEq : List JSONPathNode → List JSONPathNode → Bool
  | [], [] => true
  | _, _ => false

/-- `_is_truthy` from `query.py`: empty node list and `NOTHING` are falsy,
`None` is truthy, everything else is Python `bool(obj)`. -/
def _is_truthy : FilterValue → Bool
  | .nodes [] => false
  | .nothing => false
  | .json .null => true
  | .json (.bool b) => b
  | .json (.int i) => decide (i ≠ 0)
  | .json (.float q) => decide (q ≠ 0)
  | .json (.str s) => !s.isEmpty
  | .json (.arr l) => !l.isEmpty
  | .json (.obj m) => !m.isEmpty
  | .nodes (_ :: _) => true

/-- `_eq` from `query.py`.  Node lists are moved to the left, an empty node
list equals only `NOTHING`, a singleton node list compares its node object
against the other operand (`left[0] == right`, identity-based, hence false
against any plain value), `NOTHING` equals `NOTHING`, booleans are pulled
left and equal only booleans of the same value, and remaining pairs fall
back to Python `==` (`NOTHING == value` is false). -/
def _eq (left right : FilterValue) : Bool :=
  match left, right with
  | l, .nodes ms =>
    -- `if isinstance(right, JSONPathNodeList): left, right = right, left`
    match l with
    | .nodes ns => nodeListPyEq ms ns
    | r =>
      if ms.isEmpty then (match r with | .nothing => true | _ => false)
      else if ms.length = 1 then false -- `left[0] == right`: node vs value
      else false
  | .nodes ns, r =>
    if ns.isEmpty then (match r with | .nothing => true | _ => false)
    else if ns.length = 1 then false -- `left[0] == right`: node vs value
    else false
  | .nothing, .nothing => true
  | l, .json (.bool c) =>
    -- `if isinstance(right, bool): left, right = right, left`
    match l with
    | .json (.bool b) => c == b
    | _ => false -- `isinstance(right, bool)` fails after the swap
  | .json (.bool _), _ => false -- right is not a bool here
  | .json a, .json b => pyEq a b
  | _, _ => false -- `NOTHING == value` and `value == NOTHING` are false

/-- `_lt` from `query.py`: string against string lexicographically, number
against number numerically — where `isinstance(x, (int, float))` also
accepts Python booleans — and anything else is false. -/
def pyNum : FilterValue → Option ℚ
  | .json (.int i) => some (i : ℚ)
  | .json (.float q) => some q
  | .json (.bool b) => some ((boolAsInt b : Int) : ℚ)
  | _ => none

def _lt (left right : FilterValue) : Bool :=
  match left, right with
  | .json (.str a), .json (.str b) => decide (a < b)
  | l, r =>
    match pyNum l, pyNum r with
    | some a, some b => decide (a < b)
    | _, _ => false

/-- `ComparisonOperator` from the query AST. -/
inductive ComparisonOperator where
  | eq | ne | lt | gt | le | ge
deriving DecidableEq

/-- `LogicalOperator` from the query AST. -/
inductive LogicalOperator where
  | and | or
deriving DecidableEq

/-- `_compare` from `query.py`. -/
def _compare (left : FilterValue) (operator : ComparisonOperator)
    (right : FilterValue) : Bool :=
  match operator with
  | .eq => _eq left right
  | .ne => !_eq left right
  | .lt => _lt left right
  | .gt => _lt right left
  | .ge => _lt right left || _eq left right
  | .le => _lt left right || _eq left right

/-- `_logical` from `query.py`. -/
def _logical (left : FilterValue) (operator : LogicalOperator)
    (right : FilterValue) : Bool :=
  match operator with
  | .and => _is_truthy left && _is_truthy right
  | .or => _is_truthy left || _is_truthy right

/-- `JSONPathNode.path` from `node.py`: a dollar sign followed by a bracketed
quoted name for string entries — the name interpolated verbatim by the
f-string — and `[i]` for integer entries. -/
def renderPathSeg : PathSeg → String
  | .name s => "[" ++ squote ++ s ++ squote ++ "]"
  | .index i => "[" ++ toString i ++ "]"

def JSONPathNode.path (n : JSONPathNode) : String :=
  "$" ++ String.join (n.location.map renderPathSeg)

/-- `ExpressionType` from the function-extension machinery: the static kind
of a filter sub-expression. -/
inductive ExpressionType where
  | value | logical | nodes
deriving DecidableEq

/-- A function extension (`filter_function.py`): declared argument kinds, a
declared return kind, and the callable itself. -/
structure FilterFunction where
  arg_types : List ExpressionType
  return_type : ExpressionType
  call : List FilterValue → FilterValue

/-- `env.function_extensions`: the name → function registry (a Python dict,
keys unique, insertion-ordered). -/
abbrev Registry := List (String × FilterFunction)

/-- Python dict lookup in the registry (`env.function_extensions[name]`). -/
def lookupFunction : Registry → String → Option FilterFunction
  | [], _ => none
  | (k, f) :: rest, name => if k = name then some f else lookupFunction rest name

mutual

/-- `Selector` of the query AST (the Rust `Selector` enum described by the
spec; `query.py` pattern-matches on it). -/
inductive Selector where
  | name (n : String)
  | index (i : Int)
  | slice (start stop step : Option Int)
  | wild
  | filter (expression : FilterExpression)
  | keys
  | keysFilter (expression : FilterExpression)
  | keyName (n : String)

/-- `Segment` of the query AST. -/
inductive Segment where
  | child (selectors : List Selector)
  | recursive (selectors : List Selector)

/-- `FilterExpression` of the query AST. -/
inductive FilterExpression where
  | true_
  | false_
  | null
  | str (value : String)
  | int (value : Int)
  | float (value : ℚ)
  | not (expression : FilterExpression)
  | comparison (left : FilterExpression) (operator : ComparisonOperator)
      (right : FilterExpression)
  | logical (left : FilterExpression) (operator : LogicalOperator)
      (right : FilterExpression)
  | relativeQuery (query : QueryAst)
  | rootQuery (query : QueryAst)
  | function (name : String) (args : List FilterExpression)
  | currentKey

/-- `Query` of the query AST: the root identifier and its segments. -/
inductive QueryAst where
  | mk (segments : List Segment)

end

/-- `isinstance(node.value, (dict, list))`. -/
def isContainer : JSONValue → Bool
  | .arr _ => true
  | .obj _ => true
  | _ => false

/-- Python sequence indexing `seq[i]`: a negative index counts from the
end; out of range is an `IndexError` (here `none`). -/
def pyGetIdx {α : Type} (l : List α) (i : Int) : Option α :=
  let j := if i < 0 then i + l.length else i
  if j < 0 then none else l[j.toNat]?

/-- The index sequence of Python `seq[start:stop:step]` for a sequence of
the given length, following CPython `slice.indices` (step is nonzero). -/
def pySliceIdx (len : Int) (ostart ostop : Option Int) (step : Int) :
    List Int :=
  let lower : Int := if step < 0 then -1 else 0
  let upper : Int := if step < 0 then len - 1 else len
  let start : Int :=
    match ostart with
    | none => if step < 0 then upper else lower
    | some v => if v < 0 then max (v + len) lower else min v upper
  let stop : Int :=
    match ostop with
    | none => if step < 0 then lower else upper
    | some v => if v < 0 then max (v + len) lower else min v upper
  let count : Int :=
    if step > 0 then
      if start < stop then (stop - start - 1) / step + 1 else 0
    else
      if stop < start then (start - stop - 1) / (-step) + 1 else 0
  (List.range count.toNat).map (fun k => start + step * (k : Int))

/-- Python `seq[start:stop:step]` on a list. -/
def pySlice {α : Type} (l : List α) (ostart ostop : Option Int)
    (step : Int) : List α :=
  (pySliceIdx (l.length : Int) ostart ostop step).filterMap
    (fun i => l[i.toNat]?)

/-- The slice loop of `resolve_selector`: nodes for the sliced elements,
whose recorded indices start at `i = start or 0` and advance by `_step`
(these are not the real indices of the elements in general). -/
def slice_nodes : List JSONValue → Int → Int → List PathSeg →
    List JSONPathNode
  | [], _, _, _ => []
  | v :: rest, i, step, loc =>
    ⟨v, loc ++ [.index i]⟩ :: slice_nodes rest (i + step) step loc

/-- The object branch of the `Wild` selector: one node per member, in
document order. -/
def wild_members : List (String × JSONValue) → List PathSeg →
    List JSONPathNode
  | [], _ => []
  | (name, value) :: rest, loc =>
    ⟨value, loc ++ [.name name]⟩ :: wild_members rest loc

/-- The array branch of the `Wild` selector: one node per element, indices
from `enumerate`. -/
def wild_elems : List JSONValue → Int → List PathSeg → List JSONPathNode
  | [], _, _ => []
  | el :: rest, i, loc =>
    ⟨el, loc ++ [.index i]⟩ :: wild_elems rest (i + 1) loc

mutual

/-- `_visit` from `query.py`: depth-first pre-order traversal of a node and
its container descendants.  The `depth` counter is carried exactly as in
the source; the depth check of the source is commented out (a `TODO`), so no
depth ever raises. -/
def _visit : JSONPathNode → Nat → List JSONPathNode
  | ⟨value, location⟩, depth =>
    ⟨value, location⟩ ::
      (match value with
       | .obj members => _visit_members members location depth
       | .arr elems => _visit_elems elems 0 location depth
       | _ => [])
termination_by node _ => sizeOf node.value
decreasing_by all_goals simp_wf <;> omega

def _visit_members : List (String × JSONValue) → List PathSeg → Nat →
    List JSONPathNode
  | [], _, _ => []
  | (name, val) :: rest, loc, depth =>
    (if isContainer val then _visit ⟨val, loc ++ [.name name]⟩ (depth + 1)
     else []) ++ _visit_members rest loc depth
termination_by members _ _ => sizeOf members
decreasing_by all_goals simp_wf <;> omega

def _visit_elems : List JSONValue → Int → List PathSeg → Nat →
    List JSONPathNode
  | [], _, _, _ => []
  | el :: rest, i, loc, depth =>
    (if isContainer el then _visit ⟨el, loc ++ [.index i]⟩ (depth + 1)
     else []) ++ _visit_elems rest (i + 1) loc depth
termination_by elems _ _ _ => sizeOf elems
decreasing_by all_goals simp_wf <;> omega

end

/-- The node-list coercion done inside the `Comparison` branch of
`evaluate_filter_expression`: a singleton node list becomes the value of
its node. -/
def coerce_singular : FilterValue → FilterValue
  | .nodes [n] => .json n.value
  | v => v

/-- `_unpack_node_lists` from `query.py`: for each argument whose declared
kind is not `Nodes` but whose value is a node list, empty becomes
`NOTHING`, a singleton becomes the value of its node, and anything else is
passed through.  `func.arg_types[idx]` raises `IndexError` when there are
more arguments than declared kinds. -/
def _unpack_node_lists : List ExpressionType → List FilterValue →
    Except String (List FilterValue)
  | _, [] => .ok []
  | [], _ :: _ => .error "IndexError"
  | t :: ts, arg :: rest =>
    let v : FilterValue :=
      if t ≠ ExpressionType.nodes then
        match arg with
        | .nodes ns =>
          match ns with
          | [] => .nothing
          | [n] => .json n.value
          | _ => arg
        | _ => arg
      else arg
    match _unpack_node_lists ts rest with
    | .error e => .error e
    | .ok vs => .ok (v :: vs)

mutual

/-- `JSONPathQuery.finditer` from `query.py`: start from the root node and
push the node list through each segment in order. -/
def finditer (env : Registry) (query : QueryAst) (value : JSONValue) :
    Except String (List JSONPathNode) :=
  match query with
  | .mk segments => run_segments env value segments [⟨value, []⟩]
termination_by (sizeOf query, 9, 0)

/-- The segment loop of `finditer`. -/
def run_segments (env : Registry) (root : JSONValue) :
    List Segment → List JSONPathNode → Except String (List JSONPathNode)
  | [], nodes => .ok nodes
  | segment :: rest, nodes =>
    match resolve_segment env root segment nodes with
    | .error e => .error e
    | .ok ns => run_segments env root rest ns
termination_by segments _ => (sizeOf segments, 9, 0)

/-- The `match segment` of `finditer`: child segments go through
`resolve_child_segment`, recursive segments through
`resolve_descendant_segment`. -/
def resolve_segment (env : Registry) (root : JSONValue) (segment : Segment)
    (nodes : List JSONPathNode) : Except String (List JSONPathNode) :=
  match segment with
  | .child selectors => resolve_child_segment env root selectors nodes
  | .recursive selectors => resolve_descendant_segment env root selectors nodes
termination_by (sizeOf segment, 8, 0)

/-- `resolve_child_segment` from `query.py`: for each node whose value is a
container, apply every selector in declaration order. -/
def resolve_child_segment (env : Registry) (root : JSONValue)
    (selectors : List Selector) :
    List JSONPathNode → Except String (List JSONPathNode)
  | [] => .ok []
  | node :: rest =>
    match (if isContainer node.value
           then resolve_selectors env root selectors node else .ok []) with
    | .error e => .error e
    | .ok first =>
      match resolve_child_segment env root selectors rest with
      | .error e => .error e
      | .ok more => .ok (first ++ more)
termination_by nodes => (sizeOf selectors, 5, nodes.length)

/-- `resolve_descendant_segment` from `query.py`: for each container node,
apply every selector at every node of its `_visit` traversal. -/
def resolve_descendant_segment (env : Registry) (root : JSONValue)
    (selectors : List Selector) :
    List JSONPathNode → Except String (List JSONPathNode)
  | [] => .ok []
  | node :: rest =>
    match (if isContainer node.value
           then resolve_nodes_selectors env root selectors (_visit node 1)
           else .ok []) with
    | .error e => .error e
    | .ok first =>
      match resolve_descendant_segment env root selectors rest with
      | .error e => .error e
      | .ok more => .ok (first ++ more)
termination_by nodes => (sizeOf selectors, 5, nodes.length)

/-- The inner loop of `resolve_descendant_segment`: apply the selectors at
each visited node. -/
def resolve_nodes_selectors (env : Registry) (root : JSONValue)
    (selectors : List Selector) :
    List JSONPathNode → Except String (List JSONPathNode)
  | [] => .ok []
  | node :: rest =>
    match resolve_selectors env root selectors node with
    | .error e => .error e
    | .ok first =>
      match resolve_nodes_selectors env root selectors rest with
      | .error e => .error e
      | .ok more => .ok (first ++ more)
termination_by nodes => (sizeOf selectors, 4, nodes.length)

/-- The `for selector in selectors` loop: concatenate the matches of each
selector from one node. -/
def resolve_selectors (env : Registry) (root : JSONValue)
    (selectors : List Selector) (node : JSONPathNode) :
    Except String (List JSONPathNode) :=
  match selectors with
  | [] => .ok []
  | selector :: rest =>
    match resolve_selector env root node selector with
    | .error e => .error e
    | .ok first =>
      match resolve_selectors env root rest node with
      | .error e => .error e
      | .ok more => .ok (first ++ more)
termination_by (sizeOf selectors, 3, 0)

/-- `resolve_selector` from `query.py`.  `Name` indexes the value and
suppresses `KeyError`/`TypeError`; `Index` indexes the value raw — the
`TODO: normalize index` of the source means the location records the
possibly negative index as written; `Slice` slices the value and records
the `i = start or 0`, `i += _step` counter; `Wild` and `Filter` iterate
containers; any other selector reaches the `case _` branch and raises. -/
def resolve_selector (env : Registry) (root : JSONValue)
    (node : JSONPathNode) (selector : Selector) :
    Except String (List JSONPathNode) :=
  match selector with
  | .name name =>
    match node.value with
    | .obj members =>
      match lookupMember members name with
      | some v => .ok [⟨v, node.location ++ [.name name]⟩]
      | none => .ok [] -- KeyError suppressed
    | _ => .ok [] -- TypeError suppressed
  | .index index =>
    match node.value with
    | .arr elems =>
      match pyGetIdx elems index with
      | some v => .ok [⟨v, node.location ++ [.index index]⟩]
      | none => .ok [] -- IndexError suppressed
    | .str s =>
      -- Python also indexes strings; unreachable from segment resolution,
      -- which only hands container nodes to selectors.
      match pyGetIdx s.toList index with
      | some c => .ok [⟨.str (String.mk [c]), node.location ++ [.index index]⟩]
      | none => .ok []
    | _ => .ok [] -- KeyError (dict) / TypeError suppressed
  | .slice start stop step =>
    if step = some 0 then .ok [] -- `if step != 0:` guard
    else
      -- `_step = step or 1`; `i = start or 0` (Python `or`, `0` is falsy)
      let _step : Int := match step with
        | none => 1
        | some s => if s = 0 then 1 else s
      let i0 : Int := match start with
        | none => 0
        | some s => s
      match node.value with
      | .arr elems =>
        .ok (slice_nodes (pySlice elems start stop _step) i0 _step
          node.location)
      | .str s =>
        -- Python also slices strings; unreachable from segment resolution.
        .ok (slice_nodes ((pySlice s.toList start stop _step).map
          (fun c => JSONValue.str (String.mk [c]))) i0 _step node.location)
      | _ => .ok [] -- TypeError / KeyError suppressed
  | .wild =>
    match node.value with
    | .obj members => .ok (wild_members members node.location)
    | .arr elems => .ok (wild_elems elems 0 node.location)
    | _ => .ok []
  | .filter expression =>
    match node.value with
    | .obj members => filter_members env root expression members node.location
    | .arr elems => filter_elems env root expression elems 0 node.location
    | _ => .ok []
  | _ => .error ":(" -- keys-family selectors: the `case _` raise
termination_by (sizeOf selector, 3, 0)

/-- The object branch of the `Filter` selector: keep members whose value
satisfies the filter. -/
def filter_members (env : Registry) (root : JSONValue)
    (expression : FilterExpression) :
    List (String × JSONValue) → List PathSeg →
    Except String (List JSONPathNode)
  | [], _ => .ok []
  | (name, value) :: rest, loc =>
    match evaluate_filter env root value expression with
    | .error e => .error e
    | .ok keep =>
      match filter_members env root expression rest loc with
      | .error e => .error e
      | .ok more =>
        .ok ((if keep then [⟨value, loc ++ [.name name]⟩] else []) ++ more)
termination_by members _ => (sizeOf expression, 2, members.length)

/-- The array branch of the `Filter` selector. -/
def filter_elems (env : Registry) (root : JSONValue)
    (expression : FilterExpression) :
    List JSONValue → Int → List PathSeg → Except String (List JSONPathNode)
  | [], _, _ => .ok []
  | element :: rest, i, loc =>
    match evaluate_filter env root element expression with
    | .error e => .error e
    | .ok keep =>
      match filter_elems env root expression rest (i + 1) loc with
      | .error e => .error e
      | .ok more =>
        .ok ((if keep then [⟨element, loc ++ [.index i]⟩] else []) ++ more)
termination_by elems _ _ => (sizeOf expression, 2, elems.length)

/-- `evaluate_filter` from `query.py`: truthiness of the expression value. -/
def evaluate_filter (env : Registry) (root current : JSONValue)
    (expression : FilterExpression) : Except String Bool :=
  match evaluate_filter_expression env root current expression with
  | .error e => .error e
  | .ok v => .ok (_is_truthy v)
termination_by (sizeOf expression, 1, 0)

/-- `evaluate_filter_expression` from `query.py`. -/
def evaluate_filter_expression (env : Registry) (root current : JSONValue)
    (expression : FilterExpression) : Except String FilterValue :=
  match expression with
  | .true_ => .ok (.json (.bool true))
  | .false_ => .ok (.json (.bool false))
  | .null => .ok (.json .null)
  | .str value => .ok (.json (.str value))
  | .int value => .ok (.json (.int value))
  | .float value => .ok (.json (.float value))
  | .not expression =>
    match evaluate_filter_expression env root current expression with
    | .error e => .error e
    | .ok v => .ok (.json (.bool (!_is_truthy v)))
  | .comparison left operator right =>
    match evaluate_filter_expression env root current left with
    | .error e => .error e
    | .ok l =>
      let _left := coerce_singular l
      match evaluate_filter_expression env root current right with
      | .error e => .error e
      | .ok r =>
        let _right := coerce_singular r
        .ok (.json (.bool (_compare _left operator _right)))
  | .logical left operator right =>
    match evaluate_filter_expression env root current left with
    | .error e => .error e
    | .ok l =>
      match evaluate_filter_expression env root current right with
      | .error e => .error e
      | .ok r => .ok (.json (.bool (_logical l operator r)))
  | .relativeQuery query =>
    match finditer env query current with
    | .error e => .error e
    | .ok ns => .ok (.nodes ns)
  | .rootQuery query =>
    match finditer env query root with
    | .error e => .error e
    | .ok ns => .ok (.nodes ns)
  | .function name args =>
    -- `try: func = env.function_extensions[name] except KeyError: return NOTHING`
    match lookupFunction env name with
    | none => .ok .nothing
    | some func =>
      match evaluate_args env root current args with
      | .error e => .error e
      | .ok _args =>
        match _unpack_node_lists func.arg_types _args with
        | .error e => .error e
        | .ok unpacked => .ok (func.call unpacked)
  | .currentKey => .error ":(" -- the `case _` raise: not handled here
termination_by (sizeOf expression, 0, 0)

/-- The argument list comprehension of the `Function` branch. -/
def evaluate_args (env : Registry) (root current : JSONValue) :
    List FilterExpression → Except String (List FilterValue)
  | [] => .ok []
  | arg :: rest =>
    match evaluate_filter_expression env root current arg with
    | .error e => .error e
    | .ok v =>
      match evaluate_args env root current rest with
      | .error e => .error e
      | .ok vs => .ok (v :: vs)
termination_by args => (sizeOf args, 0, 0)

end

/-- `JSONPathQuery.find`: materialize the iterator into a node list. -/
def query_find (env : Registry) (query : QueryAst) (value : JSONValue) :
    Except String (List JSONPathNode) :=
  finditer env query value

/-- Location entries of the native evaluator, which also has a key-marker
entry for the non-standard keys selectors (spec §3, §4.F). -/
inductive SpecSeg where
  | name (s : String)
  | index (i : Int)
  | keyMarker (s : String)
deriving DecidableEq

/-- A node of the native evaluator, whose locations may carry key
markers. -/
structure SpecNode where
  value : JSONValue
  location : List SpecSeg

/-- The member loop of the keys selector. -/
def keys_members : List (String × JSONValue) → List SpecSeg → List SpecNode
  | [], _ => []
  | (name, _) :: rest, loc =>
    ⟨.str name, loc ++ [.keyMarker name]⟩ :: keys_members rest loc

/-- Modelled from the spec: the `Keys` (`~`) selector of the native
evaluator in the `jpq.jpq` extension, which is not under `src/` (the
prototype `resolve_selector` in `query.py` raises on it).  Spec §4.F:
"Keys (non-strict): for objects, emit (key-string,
location++[KeyMarker(name)]) for each name in document order; for arrays,
nothing." -/
def keys_selector (node : SpecNode) : List SpecNode :=
  match node.value with
  | .obj members => keys_members members node.location
  | _ => []

/-- Python dict assignment `d[name] = ext`: replace in place if the key
exists, else append. -/
def upsert : Registry → String → FilterFunction → Registry
  | [], name, f => [(name, f)]
  | (k, g) :: rest, name, f =>
    if k = name then (name, f) :: rest else (k, g) :: upsert rest name f

/-- Modelled from the spec: the native extension class `jpq.jpq.Env`, which
is not under `src/`.  `env.py` constructs it from the current function
dict; spec §4.E makes the environment "immutable-after-construction ...
holding the registry", so construction snapshots the registry. -/
structure NativeEnv where
  registry : Registry
  strict : Bool

/-- `JSONPathEnvironment` from `env.py`: the Python-side function dict, the
strict flag, and the current native environment `_env`.  (The constructor
also registers the five standard functions — length, count, match, search,
value — which no claim below depends on.) -/
structure JSONPathEnvironment where
  function_extensions : Registry
  strict : Bool
  native_env : NativeEnv

/-- `JSONPathEnvironment.add_function_extension` from `env.py`: store the
extension in the function dict and rebuild `_env` from it. -/
def JSONPathEnvironment.add_function_extension (env : JSONPathEnvironment)
    (name : String) (ext : FilterFunction) : JSONPathEnvironment :=
  let fs := upsert env.function_extensions name ext
  ⟨fs, env.strict, ⟨fs, env.strict⟩⟩

/-- `JSONPathQuery` from `env.py`: a compiled query holding the native
environment it was compiled under. -/
structure CompiledQuery where
  query : QueryAst
  env : NativeEnv

/-- `JSONPathEnvironment.compile` from `env.py`:
`JSONPathQuery(self._env.compile(query), env=self._env)`.  The native
parser and type checker are not under `src/`, so the compiled AST is taken
as given. -/
def JSONPathEnvironment.compile (env : JSONPathEnvironment)
    (query : QueryAst) : CompiledQuery :=
  ⟨query, env.native_env⟩

/-- `JSONPathQuery.find` from `env.py`: `self._env.query(self._query,
value)` — evaluate the stored query against the stored native
registry of the native environment (the native evaluator is modelled by the embedded
one). -/
def CompiledQuery.find (q : CompiledQuery) (value : JSONValue) :
    Except String (List JSONPathNode) :=
  query_find q.env.registry q.query value

/-- An array nested to the given depth: `nestedArr 0 = 0`,
`nestedArr (n+1) = [nestedArr n]`.  Used as a deep document for the
descendant-segment claims. -/
def nestedArr : Nat → JSONValue
  | 0 => .int 0
  | n + 1 => .arr [nestedArr n]

/-- Closed form of the `_visit` traversal on `nestedArr`. -/
def nested_visit : Nat → List PathSeg → List JSONPathNode
  | 0, loc => [⟨nestedArr 1, loc⟩]
  | n + 1, loc => ⟨nestedArr (n + 1 + 1), loc⟩ :: nested_visit n (loc ++ [.index 0])

/-- Closed form of applying the `Wild` selector at every node of the
`nestedArr` traversal. -/
def nested_wild_nodes : Nat → List PathSeg → List JSONPathNode
  | 0, loc => [⟨nestedArr 0, loc ++ [.index 0]⟩]
  | n + 1, loc =>
    ⟨nestedArr (n + 1), loc ++ [.index 0]⟩ :: nested_wild_nodes n (loc ++ [.index 0])

/-- A registered function taking no arguments and returning `true`, used to
exercise registry mutation. -/
def truthy_func : FilterFunction :=
  ⟨[], .logical, fun _ => .json (.bool true)⟩

/-- An environment with an empty registry, for the registry-capture
demonstration. -/
def demo_env : JSONPathEnvironment := ⟨[], true, ⟨[], true⟩⟩

/-- The query `$[?nosuch()]`. -/
def demo_query : QueryAst := .mk [.child [.filter (.function "nosuch" [])]]

/-- The document `[7]`. -/
def demo_doc : JSONValue := .arr [.int 7]


/-! ## Helper lemmas -/

theorem isContainer_nestedArr (n : Nat) :
    isContainer (nestedArr (n + 1)) = true := rfl

theorem visit_nestedArr (n : Nat) : ∀ (loc : List PathSeg) (depth : Nat),
    _visit ⟨nestedArr (n + 1), loc⟩ depth = nested_visit n loc := by
  induction n with
  | zero =>
    intro loc depth
    show _visit ⟨JSONValue.arr [JSONValue.int 0], loc⟩ depth
        = [⟨JSONValue.arr [JSONValue.int 0], loc⟩]
    simp only [_visit]
    simp [_visit_elems, isContainer]
  | succ n ih =>
    intro loc depth
    show _visit ⟨nestedArr (n + 1 + 1), loc⟩ depth
        = ⟨nestedArr (n + 1 + 1), loc⟩ :: nested_visit n (loc ++ [PathSeg.index 0])
    rw [show nestedArr (n + 1 + 1) = JSONValue.arr [nestedArr (n + 1)] from rfl]
    simp only [_visit]
    simp only [_visit_elems]
    simp [isContainer_nestedArr, ih]

theorem rns_wild_nested (env : Registry) (root : JSONValue) (n : Nat) :
    ∀ loc, resolve_nodes_selectors env root [Selector.wild]
        (nested_visit n loc) = .ok (nested_wild_nodes n loc) := by
  induction n with
  | zero =>
    intro loc
    show resolve_nodes_selectors env root [Selector.wild]
        [⟨JSONValue.arr [JSONValue.int 0], loc⟩]
        = .ok [⟨JSONValue.int 0, loc ++ [PathSeg.index 0]⟩]
    simp [resolve_nodes_selectors, resolve_selectors, resolve_selector,
      wild_elems]
  | succ n ih =>
    intro loc
    show resolve_nodes_selectors env root [Selector.wild]
        (⟨JSONValue.arr [nestedArr (n + 1)], loc⟩
          :: nested_visit n (loc ++ [PathSeg.index 0]))
        = .ok (⟨nestedArr (n + 1), loc ++ [PathSeg.index 0]⟩
          :: nested_wild_nodes n (loc ++ [PathSeg.index 0]))
    simp [resolve_nodes_selectors, resolve_selectors, resolve_selector,
      wild_elems, ih]

theorem nested_wild_nodes_length (n : Nat) :
    ∀ loc, (nested_wild_nodes n loc).length = n + 1 := by
  induction n with
  | zero => intro loc; simp [nested_wild_nodes]
  | succ n ih => intro loc; simp [nested_wild_nodes, ih]

theorem descendant_wild_nested (env : Registry) (n : Nat) :
    finditer env (.mk [.recursive [.wild]]) (nestedArr (n + 1))
      = .ok (nested_wild_nodes n []) := by
  simp only [finditer, run_segments, resolve_segment,
    resolve_descendant_segment]
  simp [isContainer_nestedArr, visit_nestedArr, rns_wild_nested,
    run_segments]

theorem keys_members_eq_map (loc : List SpecSeg) :
    ∀ members : List (String × JSONValue),
      keys_members members loc
        = members.map (fun m => ⟨.str m.1, loc ++ [SpecSeg.keyMarker m.1]⟩) := by
  intro members
  induction members with
  | nil => simp [keys_members]
  | cons m rest ih => simp [keys_members, ih]

/-! ## Claim theorems -/

/-- C1 (amended): if a filter function call whose name is absent from the
registry reaches evaluation, `evaluate_filter_expression` yields the
`NOTHING` sentinel rather than raising (the `except KeyError` branch);
compile-time rejection of unknown names is left to the native checker. -/
theorem unknown_function_evaluates_to_nothing
    (env : Registry) (root current : JSONValue) (name : String)
    (args : List FilterExpression) (h : lookupFunction env name = none) :
    evaluate_filter_expression env root current (.function name args)
      = .ok .nothing := by
  simp [evaluate_filter_expression, h]

theorem unknown_function_evaluates_to_nothing_witness :
    lookupFunction [] "nosuch" = none
    ∧ evaluate_filter_expression [] .null .null
        (.function "nosuch" []) = .ok .nothing :=
  ⟨rfl, unknown_function_evaluates_to_nothing [] .null .null "nosuch" [] rfl⟩

/-- C1 (counterexample): evaluating a function call with an unregistered
name does silently yield the `NOTHING` sentinel, refuting "evaluation never
silently yields the Nothing sentinel for an unknown function name". -/
theorem unknown_function_nothing_cex :
    evaluate_filter_expression [] .null .null (.function "nosuch" [])
      = .ok .nothing := by
  simp [evaluate_filter_expression, lookupFunction]

/-- C2: `JSONPathNode.path` interpolates a member name containing a single
quote verbatim, so the rendered path is not the escaped form the claim
requires. -/
theorem path_renders_name_unescaped :
    JSONPathNode.path ⟨.int 1, [.name ("a" ++ squote ++ "b")]⟩
      = "$[" ++ squote ++ "a" ++ squote ++ "b" ++ squote ++ "]"
    ∧ "$[" ++ squote ++ "a" ++ squote ++ "b" ++ squote ++ "]"
      ≠ "$[" ++ squote ++ "a" ++ "\\" ++ squote ++ "b" ++ squote ++ "]" := by
  constructor
  · rfl
  · decide

/-- C3 (counterexample): `Nothing.__eq__` returns true for an empty node
list, refuting "the equality test between NOTHING and x yields false" for
every non-Nothing x including empty node lists. -/
theorem nothing_eq_empty_nodelist_cex : nothing_eq (.nodes []) = true := rfl

/-- C3 (amended): the `NOTHING` sentinel is equal to itself and to every
empty `JSONPathNodeList`, and the equality test between `NOTHING` and every
other value yields false. -/
theorem nothing_eq_characterization :
    ∀ x : FilterValue, nothing_eq x = true ↔ x = .nothing ∨ x = .nodes [] := by
  intro x
  cases x with
  | json v => simp [nothing_eq]
  | nothing => simp [nothing_eq]
  | nodes ns => simp [nothing_eq, List.isEmpty_iff]

/-- C4: evaluating `$.a[-1]` against the object mapping a to the array
10, 20, 30 emits the node for `30` with the raw location entry `-1` (the
`TODO: normalize index` of the source), not the real array index `2` the
claim requires. -/
theorem negative_index_raw_location :
    finditer [] (.mk [.child [.name "a"], .child [.index (-1)]])
        (.obj [("a", .arr [.int 10, .int 20, .int 30])])
      = .ok [⟨.int 30, [.name "a", .index (-1)]⟩]
    ∧ [PathSeg.name "a", PathSeg.index (-1)]
      ≠ [PathSeg.name "a", PathSeg.index 2] := by
  constructor
  · simp [finditer, run_segments, resolve_segment, resolve_child_segment,
      resolve_selectors, resolve_selector, lookupMember, pyGetIdx,
      isContainer]
  · decide

/-- C5: `_lt` treats Python booleans as the numbers 0 and 1 (`bool` is an
`int` subtype), so `False < 1` evaluates to true, refuting "the orderings
< and > evaluate to false" for operand pairs containing a boolean. -/
theorem lt_bool_counterexample :
    _lt (.json (.bool false)) (.json (.int 1)) = true := rfl

/-- C6: the depth check of `_visit` is commented out, so a descendant
segment applied to a document nested 105 levels deep (beyond the claimed
default limit of 100) returns a node list instead of raising a recursion
error. -/
theorem descendant_deep_document_returns_nodes :
    ∃ ns, finditer [] (.mk [.recursive [.wild]]) (nestedArr 105) = .ok ns
      ∧ ns.length = 105 := by
  refine ⟨nested_wild_nodes 104 [], ?_, ?_⟩
  · rw [show (105 : Nat) = 104 + 1 by norm_num]
    exact descendant_wild_nested [] 104
  · rw [nested_wild_nodes_length 104 []]

/-- C7: the Keys selector (modelled from the spec, native evaluator) emits
one node per object member in document order, whose value is the member
name and whose location appends a key marker; on arrays it emits
nothing. -/
theorem keys_selector_spec :
    (∀ (members : List (String × JSONValue)) (loc : List SpecSeg),
      keys_selector ⟨.obj members, loc⟩
        = members.map (fun m => ⟨.str m.1, loc ++ [SpecSeg.keyMarker m.1]⟩))
    ∧ ∀ (elems : List JSONValue) (loc : List SpecSeg),
      keys_selector ⟨.arr elems, loc⟩ = [] := by
  constructor
  · intro members loc
    simpa [keys_selector] using keys_members_eq_map loc members
  · intro elems loc
    simp [keys_selector]

/-- C8: filter truthiness — a node list is truthy exactly when non-empty,
`NOTHING` is falsy, JSON null is truthy, a number is truthy exactly when
non-zero and a string exactly when non-empty. -/
theorem is_truthy_spec :
    (∀ ns : List JSONPathNode, _is_truthy (.nodes ns) = !ns.isEmpty)
    ∧ _is_truthy .nothing = false
    ∧ _is_truthy (.json .null) = true
    ∧ (∀ i : Int, _is_truthy (.json (.int i)) = decide (i ≠ 0))
    ∧ (∀ q : ℚ, _is_truthy (.json (.float q)) = decide (q ≠ 0))
    ∧ (∀ s : String, _is_truthy (.json (.str s)) = !s.isEmpty) := by
  refine ⟨fun ns => ?_, rfl, rfl, fun i => rfl, fun q => rfl, fun s => rfl⟩
  cases ns <;> simp [_is_truthy]

/-- C9: a compiled query evaluates against the registry snapshot captured
at compile time; registering a further function afterwards rebuilds the
native environment without touching the captured one.  The closing
conjuncts demonstrate the difference concretely: the query `$[?nosuch()]`
compiled before registration still selects nothing, while a fresh compile
after registration selects `7`. -/
theorem compiled_query_captures_registry :
    ∀ (env : JSONPathEnvironment) (name : String) (ext : FilterFunction)
      (qast : QueryAst) (d : JSONValue),
      ((env.compile qast).find d = query_find env.native_env.registry qast d)
      ∧ (((env.add_function_extension name ext).compile qast).find d
          = query_find (upsert env.function_extensions name ext) qast d)
      ∧ ((demo_env.compile demo_query).find demo_doc = .ok [])
      ∧ (((demo_env.add_function_extension "nosuch" truthy_func).compile
            demo_query).find demo_doc = .ok [⟨.int 7, [.index 0]⟩]) := by
  intro env name ext qast d
  refine ⟨rfl, rfl, ?_, ?_⟩
  · simp [demo_env, demo_query, demo_doc, JSONPathEnvironment.compile,
      CompiledQuery.find, query_find, finditer, run_segments,
      resolve_segment, resolve_child_segment, resolve_selectors,
      resolve_selector, filter_elems, evaluate_filter,
      evaluate_filter_expression, lookupFunction, isContainer, _is_truthy]
  · simp [demo_env, demo_query, demo_doc,
      JSONPathEnvironment.add_function_extension, upsert, truthy_func,
      JSONPathEnvironment.compile, CompiledQuery.find, query_find, finditer,
      run_segments, resolve_segment, resolve_child_segment,
      resolve_selectors, resolve_selector, filter_elems, evaluate_filter,
      evaluate_filter_expression, evaluate_args, _unpack_node_lists,
      lookupFunction, isContainer, _is_truthy]

/-- C10: the six comparison operators of `_compare` are interdefined: `!=`
is the negation of `==`, `>` on (a, b) is `<` on (b, a), and `>=` / `<=`
are the disjunctions of the corresponding strict ordering with `==`. -/
theorem compare_operators_interdefined :
    ∀ l r : FilterValue,
      _compare l .ne r = !_compare l .eq r
      ∧ _compare l .gt r = _compare r .lt l
      ∧ _compare l .ge r = (_compare l .gt r || _compare l .eq r)
      ∧ _compare l .le r = (_compare l .lt r || _compare l .eq r) := by
  intro l r
  exact ⟨rfl, rfl, rfl, rfl⟩
